import Mathlib

/-!
Verification development for the Graft deployment sync & rollback engine.

The Go sources are embedded shallowly:
* namespace `Server` models `internal/server/deploy` (rollback.go, utils.go);
* namespace `Client` models `internal/deploy` (sync.go, compose_sync.go).
Remote side effects are modelled as explicit event traces; the shell
snippets issued over the remote session (tag resolution, snapshot
rotation, tarball extraction) are translated step by step.
-/

namespace Server

/-- Tag sanitization `tr ':/' '__'`: both `:` and `/` become `_`
(rollback.go, `fname=$(echo "$tag" | tr ':/' '__')`). -/
def sanitizeTag (t : String) : String :=
  String.mk (t.data.map (fun c => if c = ':' ∨ c = '/' then '_' else c))

/-- Strip CR and LF characters, as `tr -d '\r\n'` does
(rollback.go, `tag=$(cat "$tag_file" | tr -d '\r\n')`). -/
def stripCRLF (s : String) : String :=
  String.mk (s.data.filter (fun c => c ≠ '\r' ∧ c ≠ '\n'))

/-- Holds when the string has no carriage return or line feed. -/
def noCRLF (s : String) : Bool :=
  s.data.all (fun c => c ≠ '\r' ∧ c ≠ '\n')

/-- The sidecar file content written by `PerformBackup`:
`echo "$tag" | sudo tee ... .tag` appends a trailing newline. -/
def sidecarContentOf (tag : String) : String := tag ++ "\n"

/-- Tag resolution of the image-load loop in `RestoreRollback` and
`RestoreServiceRollback` (rollback.go): when the `.tag` sidecar exists its
content (CR/LF stripped) is the tag; otherwise the first expected tag whose
sanitized form equals the archive's base name (sans `.tar*`) is used; if the
resolved tag is still empty, the base name itself is used. -/
def resolveTag (sidecar : Option String) (fname : String) (expected : List String) : String :=
  match sidecar with
  | some c => if stripCRLF c = "" then fname else stripCRLF c
  | none =>
    match expected.find? (fun e => sanitizeTag e = fname) with
    | some e => if e = "" then fname else e
    | none => fname

/-- Base name of an archive with everything from the last `.tar` on removed,
as the shell `${img_tar%.tar*}` does (shortest matching suffix `.tar*`). -/
def dropTarExt (s : String) : String :=
  match ((List.range (s.data.length + 1)).filter
      (fun i => (s.data.drop i).take 4 = ['.', 't', 'a', 'r'])).getLast? with
  | some i => String.mk (s.data.take i)
  | none => s

/-- Snapshot rotation in `PerformBackup` (rollback.go):
`ls -1dt * | tail -n +(N+1) | xargs rm -rf` keeps the `N` newest snapshot
directories. Snapshot state is the list of directory names newest-first;
one backup prepends the fresh timestamp and truncates to the retention. -/
def backupStep (n : Nat) (snaps : List String) (ts : String) : List String :=
  (ts :: snaps).take n

/-- A sequence of backups, oldest first. -/
def runBackups (n : Nat) (snaps : List String) (tss : List String) : List String :=
  tss.foldl (backupStep n) snaps

/-- utils.go `BuildConfig`: `build{context, dockerfile}`. -/
structure BuildConfig where
  context : String
  dockerfile : String
deriving DecidableEq

/-- The dynamic-shaped `environment` field (utils.go `ComposeService.Environment`
is an `interface{}` holding a key/value map, a list of entries, or nothing). -/
inductive EnvVal
  | nil
  | map (kvs : List (String × String))
  | list (items : List String)
deriving DecidableEq

/-- utils.go `ComposeService`. `envFiles` holds the normalized result of
`GetEnvFiles` (the yaml `env_file` field accepts one string or a list);
`other` stands for the inline remainder of the service definition. -/
structure ComposeService where
  build : Option BuildConfig := none
  image : String := ""
  environment : EnvVal := .nil
  envFiles : List String := []
  labels : List String := []
  other : List (String × String) := []
deriving DecidableEq

/-- Holds when `sub` occurs inside the char list (Go `strings.Contains`). -/
def containsChars (sub : List Char) : List Char → Bool
  | [] => sub.isEmpty
  | c :: tl => decide ((c :: tl).take sub.length = sub) || containsChars sub tl

/-- Go `strings.Contains s sub`. -/
def strContains (s sub : String) : Bool := containsChars sub.data s.data

/-- Go `strings.HasSuffix s suf`. -/
def strEndsWith (s suf : String) : Bool :=
  decide (s.data.drop (s.data.length - suf.data.length) = suf.data)

/-- Go `strings.TrimSpace` restricted to ASCII whitespace. -/
def isWS (c : Char) : Bool := c = ' ' || c = '\t' || c = '\n' || c = '\r'

/-- Trim leading and trailing whitespace from a char list. -/
def trimChars (l : List Char) : List Char :=
  ((l.dropWhile isWS).reverse.dropWhile isWS).reverse

/-- Go `strings.TrimSpace`. -/
def strTrim (s : String) : String := String.mk (trimChars s.data)

/-- Go `strings.Join lines "\n"`. -/
def joinLines : List String → String
  | [] => ""
  | [x] => x
  | x :: xs => x ++ "\n" ++ joinLines xs

/-- Base name of a slash-separated path, as `filepath.Base` computes it. -/
def baseName (p : String) : String :=
  match (p.data.splitOn '/').getLast? with
  | some b => String.mk b
  | none => p

/-- Number of dots in a base name (Go `strings.Count basename "."`). -/
def countDots (b : String) : Nat := (b.data.filter (fun c => c = '.')).length

/-- utils.go `getGraftMode`: the value of the first `graft.mode=` label,
defaulting to `localbuild`. -/
def getGraftMode (labels : List String) : String :=
  match labels.find? (fun l => decide (l.data.take 11 = "graft.mode=".data)) with
  | some l => String.mk (l.data.drop 11)
  | none => "localbuild"

/-- The env-file inclusion decision of `ProcessServiceEnvironment`
(utils.go lines 107-130), translated branch by branch. -/
def shouldIncludeEnvFile (basename envname : String) : Bool :=
  if strContains basename ("." ++ envname) || strContains basename (envname ++ ".")
      || strEndsWith basename ("." ++ envname) then true
  else if countDots basename ≤ 1 then
    (if envname = "prod" then true else false)
  else false

/-- The same inclusion rule as the spec words it: explicitly scoped to the
environment, or generic (at most one dot) and the environment is `prod`. -/
def specEnvFileIncluded (basename envname : String) : Bool :=
  strContains basename ("." ++ envname) || strContains basename (envname ++ ".")
    || strEndsWith basename ("." ++ envname)
    || (decide (countDots basename ≤ 1) && decide (envname = "prod"))

/-- Literal environment entries of a service as `KEY=VALUE` lines
(utils.go lines 91-104). -/
def envLines : EnvVal → List String
  | .nil => []
  | .map kvs => kvs.map (fun kv => kv.1 ++ "=" ++ kv.2)
  | .list items => items

/-- One env-file reference: content contributed to the merge, if the file is
scoped for the environment, readable, and nonempty after trimming
(utils.go lines 107-147). The local filesystem is `fs`. -/
def includedFileContent (fs : String → Option String) (envname : String)
    (p : String) : Option String :=
  if shouldIncludeEnvFile (baseName p) envname then
    match fs p with
    | some content => if strTrim content = "" then none else some (strTrim content)
    | none => none
  else none

/-- All environment lines `ProcessServiceEnvironment` collects for a service:
literal entries first, then the included env-file contents. -/
def collectedEnvLines (fs : String → Option String) (service : ComposeService)
    (envname : String) : List String :=
  envLines service.environment ++ service.envFiles.filterMap (includedFileContent fs envname)

/-- Secret placeholder substitution over one line (utils.go lines 154-159). -/
def resolveSecretsLine (secrets : List (String × String)) (line : String) : String :=
  secrets.foldl (fun l kv => l.replace ("$\x7b" ++ kv.1 ++ "\x7d") kv.2) line

/-- utils.go `ProcessServiceEnvironment` (server variant, 4 arguments):
returns the updated service and the merged files written locally as
`(path, content)` pairs. When nothing was collected the service is left
untouched and nothing is written. -/
def processServiceEnvironment (fs : String → Option String) (serviceName : String)
    (service : ComposeService) (secrets : List (String × String)) (envname : String) :
    ComposeService × List (String × String) :=
  let lines := collectedEnvLines fs service envname
  if lines.isEmpty then (service, [])
  else
    ({ service with
        environment := EnvVal.nil
        envFiles := ["./env/" ++ serviceName ++ ".env"] },
     [("env/" ++ (serviceName ++ ".env." ++ envname),
       joinLines (lines.map (resolveSecretsLine secrets)))])

/-- rollback.go `RestoreServiceRollback` steps 1-3: fail when the service is
absent from the snapshot manifest, otherwise replace exactly that key of the
currently deployed services map with the snapshot's definition. -/
def restoreServiceSplice (backupServices currentServices : String → Option ComposeService)
    (n : String) : Except String (String → Option ComposeService) :=
  match backupServices n with
  | none => Except.error ("service not found in backup")
  | some svc => Except.ok (fun k => if k = n then some svc else currentServices k)

/-- Filesystem with a single whitespace-only env file. -/
def fsWhitespace : String → Option String :=
  fun p => if p = "app.env" then some "   " else none

/-- Service whose only environment source is that whitespace env file. -/
def svcWhitespaceEnv : ComposeService := { envFiles := ["app.env"] }

/-- Filesystem with one generic (unscoped) env file. -/
def fsGeneric : String → Option String :=
  fun p => if p = "backend.env" then some "KEY=VALUE" else none

/-- Service referencing the generic env file. -/
def svcGenericEnv : ComposeService := { envFiles := ["backend.env"] }

/-- A service with one literal environment entry. -/
def svcLiteralEnv : ComposeService := { environment := .list ["A=1"] }

/-- Empty local filesystem. -/
def fsEmpty : String → Option String := fun _ => none

/-- Snapshot manifest for the C4 witness. -/
def backupServicesEx : String → Option ComposeService :=
  fun k => if k = "backend" then some { image := "backend:old" } else none

/-- Currently deployed manifest for the C4 witness. -/
def currentServicesEx : String → Option ComposeService :=
  fun k =>
    if k = "backend" then some { image := "backend:new" }
    else if k = "web" then some { image := "web:1" } else none

/-- The merged manifest `RestoreServiceRollback` uploads in the C4 witness. -/
def mergedServicesEx : String → Option ComposeService :=
  fun k => if k = "backend" then some { image := "backend:old" }
           else currentServicesEx k

end Server

namespace Client

/-- sync.go `BuildConfig` of `internal/deploy`. -/
structure BuildConfig where
  context : String
  dockerfile : String
deriving DecidableEq

/-- The `ComposeService` of `internal/deploy` (the fields these claims need). -/
structure ComposeService where
  build : Option BuildConfig := none
  image : String := ""
  envFiles : List String := []
  labels : List String := []
deriving DecidableEq

/-- The three per-service execution paths of `SyncService` (sync.go), in the
order the code tests them. -/
inductive Strategy
  | pull
  | uploadBuild
  | plainBuild
deriving DecidableEq

/-- Deploy-strategy classification, following `SyncService`'s branch order:
an image without a build descriptor is image-based (PULL); `serverbuild`
mode with a build descriptor is upload-and-build; everything else falls
through to the plain stop/build/start tail. -/
def classifyStrategy (svc : ComposeService) : Strategy :=
  if svc.image ≠ "" ∧ svc.build = none then Strategy.pull
  else if Server.getGraftMode svc.labels = "serverbuild" ∧ svc.build ≠ none then
    Strategy.uploadBuild
  else Strategy.plainBuild

/-- One step of a composite remote shell command. -/
inductive ShellStep
  | rmRfDir (p : String)
  | mkdirP (p : String)
  | tarExtract (tarball dir : String)
  | rmFile (p : String)
deriving DecidableEq

/-- The fallback extraction command of `SyncService` (sync.go line 292):
`rm -rf DIR && mkdir -p DIR && tar -xzf TAR -C DIR && rm TAR`. -/
def syncServiceExtractCmd (serviceDir remoteTarball : String) : List ShellStep :=
  [ShellStep.rmRfDir serviceDir, ShellStep.mkdirP serviceDir,
   ShellStep.tarExtract remoteTarball serviceDir, ShellStep.rmFile remoteTarball]

/-- The fallback extraction command of whole-project `Sync` (sync.go
line 527): `mkdir -p DIR && tar -xzf TAR -C DIR && rm TAR`. -/
def syncExtractCmd (serviceDir remoteTarball : String) : List ShellStep :=
  [ShellStep.mkdirP serviceDir, ShellStep.tarExtract remoteTarball serviceDir,
   ShellStep.rmFile remoteTarball]

/-- A remote mutation issued over the remote session. Paths are relative to
the remote project directory. -/
inductive REvent
  | backupWrite
  | backupRotate
  | mkdirProjDir
  | mkdirEnvDir
  | uploadEnvFile (name : String)
  | uploadCompose
  | mkdirServiceDir (p : String)
  | rsyncDir (src dst : String)
  | uploadTarball (remote : String)
  | runShell (steps : List ShellStep)
  | stopRemove (svc : String)
  | pullImage (svc : String)
  | startService (svc : String)
  | startAll
  | pruneImages
  | builderPrune
  | buildService (svc : String) (noCache : Bool)
  | buildAll (noCache : Bool)
deriving DecidableEq

/-- The validation errors of `Sync`/`SyncService`. -/
inductive SyncErr
  | manifestMissing
  | unknownService (n : String)
  | buildContextMissing (p : String)
  | buildFileMissing (p : String)
deriving DecidableEq

/-- Remote writes of `PerformBackup` (server rollback.go): nothing when the
retention is not positive or no manifest is deployed remotely; otherwise the
snapshot is written and old snapshots rotated. -/
def backupTrace (retention : Int) (remoteManifestExists : Bool) : List REvent :=
  if retention ≤ 0 then []
  else if remoteManifestExists then [REvent.backupWrite, REvent.backupRotate]
  else []

/-- Upload of the local `./env` directory when it exists (sync.go lines
97-111 / 575-588): the remote env dir is created, then each file uploaded. -/
def envUploadTrace (envDirFiles : Option (List String)) : List REvent :=
  match envDirFiles with
  | none => []
  | some files => REvent.mkdirEnvDir :: files.map REvent.uploadEnvFile

/-- Build-file name with the `Dockerfile` default (sync.go lines 171-174). -/
def effectiveDockerfile (b : BuildConfig) : String :=
  if b.dockerfile = "" then "Dockerfile" else b.dockerfile

/-- Remote directory name for a build context (sync.go lines 255-258):
the context's base name, or the service name when it is `.` or `/`.
Contexts are taken already cleaned (`filepath.Clean` has run). -/
def contextName (ctx serviceName : String) : String :=
  if Server.baseName ctx = "." ∨ Server.baseName ctx = "/" then serviceName
  else Server.baseName ctx

/-- Inputs of one (non-git) sync run: local and remote state the code
inspects. `envDirFiles = some fs` when the local `./env` directory exists
with files `fs`; `rsyncAvailable = false` makes `RsyncDirectory` fail with
the `rsync not found` error that triggers the tarball fallback. -/
structure SyncEnv where
  retention : Int
  remoteManifestExists : Bool
  localManifestExists : Bool
  services : List (String × ComposeService)
  envDirFiles : Option (List String)
  dirExists : String → Bool
  fileExists : String → Bool
  rsyncAvailable : Bool
  heave : Bool
  noCache : Bool

/-- Transfer of one service's source in `SyncService` (sync.go lines
260-301): try rsync, else tarball upload plus wipe-and-replace
extraction. -/
def serviceTransferTrace (e : SyncEnv) (ctx cn : String) : List REvent :=
  if e.rsyncAvailable then [REvent.rsyncDir ctx cn]
  else [REvent.uploadTarball (cn ++ ".tar.gz"),
        REvent.runShell (syncServiceExtractCmd cn (cn ++ ".tar.gz"))]

/-- Transfer of one service's source in whole-project `Sync` (sync.go lines
495-536): try rsync, else tarball upload plus extraction without removing
the prior contents. -/
def projectTransferTrace (e : SyncEnv) (ctx cn : String) : List REvent :=
  if e.rsyncAvailable then [REvent.rsyncDir ctx cn]
  else [REvent.uploadTarball (cn ++ ".tar.gz"),
        REvent.runShell (syncExtractCmd cn (cn ++ ".tar.gz"))]

/-- The generic stop/build/start tail of `SyncService` (sync.go lines
308-347). -/
def serviceTailTrace (e : SyncEnv) (serviceName : String) : List REvent :=
  [REvent.stopRemove serviceName]
    ++ (if e.noCache then [REvent.builderPrune] else [])
    ++ [REvent.buildService serviceName e.noCache,
        REvent.startService serviceName, REvent.pruneImages]

/-- Event-trace model of `SyncService` (sync.go lines 19-348, non-git runs):
the validation outcome (`none` = success) and the ordered remote
mutations. -/
def syncServiceModel (e : SyncEnv) (serviceName : String) :
    Option SyncErr × List REvent :=
  let tr0 := backupTrace e.retention e.remoteManifestExists
  if e.localManifestExists = false then (some SyncErr.manifestMissing, tr0)
  else
    match e.services.find? (fun sv => sv.1 = serviceName) with
    | none => (some (SyncErr.unknownService serviceName), tr0)
    | some sv =>
      let svc := sv.2
      let tr1 := tr0 ++ [REvent.mkdirProjDir] ++ envUploadTrace e.envDirFiles
        ++ [REvent.uploadCompose]
      if svc.image ≠ "" ∧ svc.build = none then
        if e.heave then (none, tr1)
        else (none, tr1 ++ [REvent.stopRemove serviceName, REvent.pullImage serviceName,
          REvent.startService serviceName, REvent.pruneImages])
      else
        match svc.build with
        | some b =>
          if Server.getGraftMode svc.labels = "serverbuild" then
            if e.dirExists b.context = false then
              (some (SyncErr.buildContextMissing b.context), tr1)
            else if e.fileExists (b.context ++ "/" ++ effectiveDockerfile b) = false then
              (some (SyncErr.buildFileMissing (b.context ++ "/" ++ effectiveDockerfile b)), tr1)
            else
              let cn := contextName b.context serviceName
              let tr2 := tr1 ++ [REvent.mkdirServiceDir cn] ++ serviceTransferTrace e b.context cn
              if e.heave then (none, tr2)
              else (none, tr2 ++ serviceTailTrace e serviceName)
          else (none, tr1 ++ serviceTailTrace e serviceName)
        | none => (none, tr1 ++ serviceTailTrace e serviceName)

/-- The per-service source-upload loop of whole-project `Sync` (sync.go
lines 457-538): only `serverbuild` services with a build descriptor are
validated and transferred, in manifest order. -/
def syncUploadPhase (e : SyncEnv) :
    List (String × ComposeService) → List REvent → Option SyncErr × List REvent
  | [], tr => (none, tr)
  | (n, svc) :: rest, tr =>
    match svc.build with
    | some b =>
      if Server.getGraftMode svc.labels = "serverbuild" then
        if e.dirExists b.context = false then
          (some (SyncErr.buildContextMissing b.context), tr)
        else if e.fileExists (b.context ++ "/" ++ effectiveDockerfile b) = false then
          (some (SyncErr.buildFileMissing (b.context ++ "/" ++ effectiveDockerfile b)), tr)
        else
          syncUploadPhase e rest
            (tr ++ [REvent.mkdirServiceDir (contextName b.context n)]
              ++ projectTransferTrace e b.context (contextName b.context n))
      else syncUploadPhase e rest tr
    | none => syncUploadPhase e rest tr

/-- Event-trace model of whole-project `Sync` (sync.go lines 350-631,
non-git runs). Note the remote project directory is created before the
local manifest is checked. -/
def syncModel (e : SyncEnv) : Option SyncErr × List REvent :=
  let tr0 := backupTrace e.retention e.remoteManifestExists ++ [REvent.mkdirProjDir]
  if e.localManifestExists = false then (some SyncErr.manifestMissing, tr0)
  else
    match syncUploadPhase e e.services tr0 with
    | (some err, tr) => (some err, tr)
    | (none, tr1) =>
      let tr2 := tr1 ++ envUploadTrace e.envDirFiles ++ [REvent.uploadCompose]
      if e.heave then (none, tr2)
      else (none, tr2 ++ (if e.noCache then [REvent.builderPrune] else [])
        ++ [REvent.buildAll e.noCache, REvent.startAll, REvent.pruneImages])

/-- ASCII lower-casing (Go `strings.ToLower` on the repository slug). -/
def lowerStr (s : String) : String := String.mk (s.data.map Char.toLower)

/-- Go `strings.TrimSuffix`. -/
def trimSuffixStr (s suf : String) : String :=
  if Server.strEndsWith s suf then String.mk (s.data.take (s.data.length - suf.data.length))
  else s

/-- Owner/repo extraction from the version-control remote URL (sync.go
`SyncComposeOnly` lines 694-707): strip a `.git` suffix, then take the last
two `/`-components of an `https://` URL, or the part after `:` of a `git@`
URL; anything else yields the empty string. -/
def parseOwnerRepo (remoteURL : String) : String :=
  if remoteURL.data.take 8 = "https://".data then
    let parts := (trimSuffixStr remoteURL ".git").data.splitOn '/'
    if 2 ≤ parts.length then
      String.mk (parts.getD (parts.length - 2) []) ++ "/"
        ++ String.mk (parts.getD (parts.length - 1) [])
    else ""
  else if remoteURL.data.take 4 = "git@".data then
    let parts := (trimSuffixStr remoteURL ".git").data.splitOn ':'
    if 2 ≤ parts.length then String.mk (parts.getD 1 []) else ""
  else ""

/-- The git-images rewrite of `SyncComposeOnly` (sync.go lines 691-714):
when the effective mode is `git-images` and the service has a build
descriptor, and the `origin` remote URL is resolvable and parseable, the
build descriptor is dropped in favour of a GHCR image reference. -/
def gitImagesRewrite (serviceName : String) (svc : ComposeService)
    (remoteURL : Option String) : ComposeService :=
  if Server.getGraftMode svc.labels = "git-images" ∧ svc.build ≠ none then
    match remoteURL with
    | some url =>
      if parseOwnerRepo url ≠ "" then
        { svc with
            image := "ghcr.io/" ++ lowerStr (parseOwnerRepo url) ++ "/"
              ++ serviceName ++ ":latest"
            build := none }
      else svc
    | none => svc
  else svc

/-- Image-only service used by the routing claims. -/
def svcFrontend : ComposeService := { image := "nginx:alpine" }

/-- Server-built service used by the routing claims. -/
def svcBackend : ComposeService :=
  { build := some ⟨"backend", ""⟩, labels := ["graft.mode=serverbuild"] }

/-- git-images service used by the registry-rewrite claims. -/
def svcGitImages : ComposeService :=
  { build := some ⟨"backend", ""⟩, labels := ["graft.mode=git-images"] }

/-- A run with backup skipped, both services present, rsync available. -/
def envRouting : SyncEnv :=
  { retention := 0, remoteManifestExists := false, localManifestExists := true,
    services := [("frontend", svcFrontend), ("backend", svcBackend)],
    envDirFiles := none, dirExists := fun _ => true, fileExists := fun _ => true,
    rsyncAvailable := true, heave := false, noCache := false }

/-- The same run with rsync unavailable, forcing the tarball fallback. -/
def envNoRsync : SyncEnv :=
  { retention := 0, remoteManifestExists := false, localManifestExists := true,
    services := [("frontend", svcFrontend), ("backend", svcBackend)],
    envDirFiles := none, dirExists := fun _ => true, fileExists := fun _ => true,
    rsyncAvailable := false, heave := false, noCache := false }

/-- A run with an active backup (retention 1, manifest deployed remotely)
and the local manifest missing. -/
def envMissingManifest : SyncEnv :=
  { retention := 1, remoteManifestExists := true, localManifestExists := false,
    services := [], envDirFiles := none, dirExists := fun _ => false,
    fileExists := fun _ => false, rsyncAvailable := true, heave := false,
    noCache := false }

end Client

namespace Server

theorem stripCRLF_of_noCRLF (t : String) (h : noCRLF t = true) :
    stripCRLF (sidecarContentOf t) = t := by
  have hall : ∀ c ∈ t.data, (c ≠ '\r' ∧ c ≠ '\n') := by
    intro c hc
    have := List.all_eq_true.mp h c hc
    simpa using this
  unfold stripCRLF sidecarContentOf
  apply String.ext
  show ((t ++ "\n").data.filter _) = t.data
  have hdata : (t ++ "\n").data = t.data ++ ['\n'] := by
    simp [String.data_append]
  rw [hdata, List.filter_append]
  have h1 : t.data.filter (fun c => decide (c ≠ '\r' ∧ c ≠ '\n')) = t.data := by
    apply List.filter_eq_self.mpr
    intro a ha
    simpa using hall a ha
  have h2 : ['\n'].filter (fun c => decide (c ≠ '\r' ∧ c ≠ '\n')) = [] := by decide
  rw [h1, h2, List.append_nil]

theorem take_append_take (n : Nat) (a b : List String) :
    (a ++ b.take n).take n = (a ++ b).take n := by
  rw [List.take_append_eq_append_take, List.take_append_eq_append_take, List.take_take]
  rw [Nat.min_eq_left (Nat.sub_le n a.length)]

theorem runBackups_eq (n : Nat) (tss : List String) :
    ∀ s : List String, s.length ≤ n →
      runBackups n s tss = (tss.reverse ++ s).take n := by
  induction tss with
  | nil =>
    intro s hs
    simp [runBackups, List.take_of_length_le hs]
  | cons t tss ih =>
    intro s hs
    have hstep : runBackups n s (t :: tss) = runBackups n ((t :: s).take n) tss := rfl
    rw [hstep, ih ((t :: s).take n) (by simp [List.length_take])]
    rw [take_append_take, List.reverse_cons, List.append_assoc]
    rfl

/-- C1. During rollback image loading, an archive with a sidecar is restored
under exactly the tag recorded in the sidecar; only without a sidecar is the
tag found by matching the sanitized archive name against the sanitized
expected tags. The `myapp_backend_latest.tar.gz` / `myapp/backend:latest`
example resolves to the sidecar tag. -/
theorem C1_rollback_tag_resolution :
    (∀ tag fname expected, noCRLF tag = true → tag ≠ "" →
      resolveTag (some (sidecarContentOf tag)) fname expected = tag) ∧
    (∀ fname expected tag, tag ≠ "" →
      expected.find? (fun e => sanitizeTag e = fname) = some tag →
      resolveTag none fname expected = tag) ∧
    sanitizeTag "myapp/backend:latest" = "myapp_backend_latest" ∧
    dropTarExt "myapp_backend_latest.tar.gz" = "myapp_backend_latest" ∧
    resolveTag (some (sidecarContentOf "myapp/backend:latest")) "myapp_backend_latest"
      ["myapp/backend:latest"] = "myapp/backend:latest" := by
  refine ⟨?_, ?_, by decide, by decide, by decide⟩
  · intro tag fname expected hcr hne
    show (if stripCRLF (sidecarContentOf tag) = "" then fname
          else stripCRLF (sidecarContentOf tag)) = tag
    rw [stripCRLF_of_noCRLF tag hcr]
    simp [hne]
  · intro fname expected tag hne hfind
    unfold resolveTag
    rw [hfind]
    simp [hne]

/-- Witness for C1 at concrete inputs. -/
theorem C1_rollback_tag_resolution_witness :
    resolveTag (some (sidecarContentOf "myapp/backend:latest")) "other"
      [] = "myapp/backend:latest" ∧
    resolveTag none "myapp_backend_latest" ["myapp/backend:latest"]
      = "myapp/backend:latest" :=
  ⟨C1_rollback_tag_resolution.1 "myapp/backend:latest" "other" [] (by decide) (by decide),
   C1_rollback_tag_resolution.2.1 "myapp_backend_latest" ["myapp/backend:latest"]
     "myapp/backend:latest" (by decide) (by decide)⟩

/-- C2. With retention `n > 0`, after `K > n` backups exactly `n` snapshots
remain, namely the `n` most recently created (newest first), and no
intermediate state holds more than `n` snapshots. -/
theorem C2_backup_retention (n : Nat) (s tss : List String)
    (hn : 0 < n) (hs : s.length ≤ n) (hK : n < tss.length) :
    (runBackups n s tss).length = n ∧
    runBackups n s tss = tss.reverse.take n ∧
    (∀ t₁ t₂, tss = t₁ ++ t₂ → (runBackups n s t₁).length ≤ n) := by
  have hmain : runBackups n s tss = tss.reverse.take n := by
    rw [runBackups_eq n tss s hs]
    rw [List.take_append_of_le_length (by simpa using Nat.le_of_lt hK)]
  refine ⟨?_, hmain, ?_⟩
  · rw [hmain, List.length_take, List.length_reverse]
    exact Nat.min_eq_left (Nat.le_of_lt hK)
  · intro t₁ t₂ hsplit
    rw [runBackups_eq n t₁ s hs, List.length_take]
    exact Nat.min_le_left _ _

/-- C4. After the `RestoreService` splice, every service other than the
target resolves to exactly its definition in the pre-rollback deployed
manifest, and the target resolves to the snapshot's definition. -/
theorem C4_restore_service_frame (b c : String → Option ComposeService)
    (n : String) (svc : ComposeService) (hb : b n = some svc) :
    ∀ m, restoreServiceSplice b c n = Except.ok m →
      (∀ s, s ≠ n → m s = c s) ∧ m n = some svc := by
  intro m hm
  unfold restoreServiceSplice at hm
  rw [hb] at hm
  injection hm with hfun
  subst hfun
  constructor
  · intro s hs
    simp [hs]
  · simp

/-- Witness for C4: splicing `backend` from the snapshot leaves `web`
untouched and replaces only `backend`. -/
theorem C4_restore_service_frame_witness :
    mergedServicesEx "web" = currentServicesEx "web" ∧
    mergedServicesEx "backend" = some { image := "backend:old" } :=
  have h := C4_restore_service_frame backupServicesEx currentServicesEx
    "backend" { image := "backend:old" } rfl mergedServicesEx rfl
  ⟨h.1 "web" (by decide), h.2⟩

/-- Counterexample to C5 as stated: a service whose only environment source
is an included (generic, readable) env file with whitespace-only content is
left completely untouched — it keeps its original `env_file` reference and
no merged per-service file is written. -/
theorem C5_counterexample :
    shouldIncludeEnvFile (baseName "app.env") "prod" = true ∧
    fsWhitespace "app.env" = some "   " ∧
    processServiceEnvironment fsWhitespace "app" svcWhitespaceEnv [] "prod"
      = (svcWhitespaceEnv, []) ∧
    (processServiceEnvironment fsWhitespace "app" svcWhitespaceEnv [] "prod").1.envFiles
      ≠ ["./env/app.env"] := by
  refine ⟨by decide, by decide, by decide, by decide⟩

/-- C5 (amended). For every service whose collected environment lines are
nonempty — at least one literal environment entry, or an included env file
that is readable with nonempty content after trimming — the transformed
service has its literal environment cleared and carries exactly the
env-file reference to the merged per-service file. -/
theorem C5_env_rewrite (fs : String → Option String) (serviceName : String)
    (service : ComposeService) (secrets : List (String × String)) (envname : String)
    (h : collectedEnvLines fs service envname ≠ []) :
    (processServiceEnvironment fs serviceName service secrets envname).1.environment
      = EnvVal.nil ∧
    (processServiceEnvironment fs serviceName service secrets envname).1.envFiles
      = ["./env/" ++ serviceName ++ ".env"] := by
  have hne : (collectedEnvLines fs service envname).isEmpty = false := by
    simpa [List.isEmpty_iff] using h
  simp [processServiceEnvironment, hne]

/-- Witness for C5 (amended) at a service with one literal entry. -/
theorem C5_env_rewrite_witness :
    (processServiceEnvironment fsEmpty "api" svcLiteralEnv [] "prod").1.environment
      = EnvVal.nil ∧
    (processServiceEnvironment fsEmpty "api" svcLiteralEnv [] "prod").1.envFiles
      = ["./env/" ++ "api" ++ ".env"] :=
  C5_env_rewrite fsEmpty "api" svcLiteralEnv [] "prod" (by decide)

/-- C6. The env-file inclusion decision of the transform pipeline agrees
everywhere with the spec's predicate (explicitly scoped to the environment,
or generic with at most one dot and environment `prod`); concretely, a
generic file is merged for `prod` and excluded for `staging`. -/
theorem C6_env_file_scoping :
    (∀ b e, shouldIncludeEnvFile b e = specEnvFileIncluded b e) ∧
    (processServiceEnvironment fsGeneric "svc" svcGenericEnv [] "prod").2
      = [("env/svc.env.prod", "KEY=VALUE")] ∧
    processServiceEnvironment fsGeneric "svc" svcGenericEnv [] "staging"
      = (svcGenericEnv, []) := by
  refine ⟨?_, by decide, by decide⟩
  intro b e
  unfold shouldIncludeEnvFile specEnvFileIncluded
  cases hx : strContains b ("." ++ e) <;>
    cases hy : strContains b (e ++ ".") <;>
      cases hz : strEndsWith b ("." ++ e) <;>
        by_cases hw : countDots b ≤ 1 <;>
          simp [hx, hy, hz, hw]

/-- C10. When a rewrite happens, the env-file reference written into the
service is exactly `./env/<serviceName>.env` — carrying no environment
suffix — while the merged content is written to `env/<serviceName>.env.<e>`,
a different path. -/
theorem C10_env_reference_paths (fs : String → Option String)
    (serviceName : String) (service : ComposeService)
    (secrets : List (String × String)) (envname : String)
    (h : collectedEnvLines fs service envname ≠ []) :
    (processServiceEnvironment fs serviceName service secrets envname).1.envFiles
      = ["./env/" ++ serviceName ++ ".env"] ∧
    ((processServiceEnvironment fs serviceName service secrets envname).2.map Prod.fst)
      = ["env/" ++ (serviceName ++ ".env." ++ envname)] ∧
    ("./env/" ++ serviceName ++ ".env") ≠ ("env/" ++ (serviceName ++ ".env." ++ envname)) := by
  have hne : (collectedEnvLines fs service envname).isEmpty = false := by
    simpa [List.isEmpty_iff] using h
  refine ⟨?_, ?_, ?_⟩
  · simp [processServiceEnvironment, hne]
  · simp [processServiceEnvironment, hne]
  · intro heq
    have hlit : "./env/".data = '.' :: "/env/".data := by decide
    have h1 : ("./env/" ++ serviceName ++ ".env").data.head? = some '.' := by
      rw [String.data_append, String.data_append, hlit]
      rfl
    have hlit2 : "env/".data = 'e' :: "nv/".data := by decide
    have h2 : ("env/" ++ (serviceName ++ ".env." ++ envname)).data.head? = some 'e' := by
      rw [String.data_append, hlit2]
      rfl
    rw [heq, h2] at h1
    exact absurd h1 (by decide)

/-- Witness for C10 at a concrete service and environment. -/
theorem C10_env_reference_paths_witness :
    (processServiceEnvironment fsEmpty "api" svcLiteralEnv [] "prod").1.envFiles
      = ["./env/" ++ "api" ++ ".env"] ∧
    ((processServiceEnvironment fsEmpty "api" svcLiteralEnv [] "prod").2.map Prod.fst)
      = ["env/" ++ ("api" ++ ".env." ++ "prod")] ∧
    ("./env/" ++ "api" ++ ".env") ≠ ("env/" ++ ("api" ++ ".env." ++ "prod")) :=
  C10_env_reference_paths fsEmpty "api" svcLiteralEnv [] "prod" (by decide)

/-- Witness for C2: three backups with retention two keep the two newest. -/
theorem C2_backup_retention_witness :
    (runBackups 2 [] ["t1", "t2", "t3"]).length = 2 ∧
    runBackups 2 [] ["t1", "t2", "t3"] = ["t3", "t2"] :=
  ⟨(C2_backup_retention 2 [] ["t1", "t2", "t3"] (by decide) (by decide) (by decide)).1,
   by rw [(C2_backup_retention 2 [] ["t1", "t2", "t3"]
       (by decide) (by decide) (by decide)).2.1]; decide⟩

end Server

namespace Client

/-- Counterexample to C3 as stated: with retention 1 and a manifest deployed
remotely, a `SyncService` run whose local manifest is missing returns the
validation error only after the pre-sync backup has already written and
rotated snapshot state on the remote host. -/
theorem C3_counterexample :
    (syncServiceModel envMissingManifest "backend").1 = some SyncErr.manifestMissing ∧
    (syncServiceModel envMissingManifest "backend").2 ≠ [] := by
  decide

/-- C3 (amended). Missing-manifest and unknown-service errors in
`SyncService` are raised with no remote mutation beyond the pre-sync
backup's snapshot writes, and that backup trace is empty whenever the
backup is skipped (retention not positive, or no remote manifest). A
missing build context in `SyncService` is reported only after the remote
project directory is created and the env files and generated manifest are
uploaded. Whole-project `Sync` additionally creates the remote project
directory before checking the local manifest. -/
theorem C3_validation_mutation_order (e : SyncEnv) (n : String) :
    (e.localManifestExists = false →
      syncServiceModel e n
        = (some SyncErr.manifestMissing, backupTrace e.retention e.remoteManifestExists)) ∧
    (e.localManifestExists = true →
      e.services.find? (fun sv => sv.1 = n) = none →
      syncServiceModel e n
        = (some (SyncErr.unknownService n), backupTrace e.retention e.remoteManifestExists)) ∧
    (e.retention ≤ 0 → backupTrace e.retention e.remoteManifestExists = []) ∧
    (e.remoteManifestExists = false → backupTrace e.retention e.remoteManifestExists = []) ∧
    (∀ svc b, e.localManifestExists = true →
      e.services.find? (fun sv => sv.1 = n) = some (n, svc) →
      svc.build = some b →
      Server.getGraftMode svc.labels = "serverbuild" →
      e.dirExists b.context = false →
      syncServiceModel e n
        = (some (SyncErr.buildContextMissing b.context),
           backupTrace e.retention e.remoteManifestExists ++ [REvent.mkdirProjDir]
             ++ envUploadTrace e.envDirFiles ++ [REvent.uploadCompose])) ∧
    (e.localManifestExists = false →
      syncModel e
        = (some SyncErr.manifestMissing,
           backupTrace e.retention e.remoteManifestExists ++ [REvent.mkdirProjDir])) := by
  refine ⟨?_, ?_, ?_, ?_, ?_, ?_⟩
  · intro h1
    simp [syncServiceModel, h1]
  · intro h1 h2
    simp [syncServiceModel, h1, h2]
  · intro h
    simp [backupTrace, h]
  · intro h
    simp [backupTrace, h]
  · intro svc b h1 h2 hb hm hctx
    simp [syncServiceModel, h1, h2, hb, hm, hctx]
  · intro h1
    simp [syncModel, h1]

/-- Witness for C3 (amended) at the concrete missing-manifest run. -/
theorem C3_validation_mutation_order_witness :
    syncServiceModel envMissingManifest "backend"
      = (some SyncErr.manifestMissing, [REvent.backupWrite, REvent.backupRotate]) := by
  have h := (C3_validation_mutation_order envMissingManifest "backend").1 rfl
  rw [h]
  decide

/-- Counterexample to C7 as stated: the git-images rewrite of a `backend`
service of repository `Acme/Shop` produces the slash-joined reference
`ghcr.io/acme/shop/backend:latest`, not `ghcr.io/acme/shop-backend:latest`
as the `registry/owner/name-service:latest` shape reads. -/
theorem C7_counterexample :
    (gitImagesRewrite "backend" svcGitImages
        (some "https://github.com/Acme/Shop.git")).image
      = "ghcr.io/acme/shop/backend:latest" ∧
    (gitImagesRewrite "backend" svcGitImages
        (some "https://github.com/Acme/Shop.git")).image
      ≠ "ghcr.io/acme/shop-backend:latest" ∧
    (gitImagesRewrite "backend" svcGitImages
        (some "https://github.com/Acme/Shop.git")).build = none := by
  decide

/-- C7 (amended). For a git-images service with a build descriptor and a
parseable remote URL, the build descriptor is removed and the image becomes
`ghcr.io/<owner/repo lower-cased>/<service>:latest` (slash-joined); both URL
forms yield the owner/repo slug. -/
theorem C7_git_images_rewrite (serviceName : String) (svc : ComposeService)
    (url : String) (hmode : Server.getGraftMode svc.labels = "git-images")
    (hb : svc.build ≠ none) (hor : parseOwnerRepo url ≠ "") :
    (gitImagesRewrite serviceName svc (some url)).image
      = "ghcr.io/" ++ lowerStr (parseOwnerRepo url) ++ "/" ++ serviceName ++ ":latest" ∧
    (gitImagesRewrite serviceName svc (some url)).build = none ∧
    parseOwnerRepo "https://github.com/Acme/Shop.git" = "Acme/Shop" ∧
    parseOwnerRepo "git@github.com:Acme/Shop.git" = "Acme/Shop" := by
  refine ⟨?_, ?_, by decide, by decide⟩ <;> simp [gitImagesRewrite, hmode, hb, hor]

/-- Witness for C7 (amended) at a concrete service and remote URL. -/
theorem C7_git_images_rewrite_witness :
    (gitImagesRewrite "api" svcGitImages (some "git@github.com:Acme/Shop.git")).image
      = "ghcr.io/" ++ lowerStr (parseOwnerRepo "git@github.com:Acme/Shop.git")
        ++ "/" ++ "api" ++ ":latest" ∧
    (gitImagesRewrite "api" svcGitImages (some "git@github.com:Acme/Shop.git")).build
      = none :=
  have h := C7_git_images_rewrite "api" svcGitImages "git@github.com:Acme/Shop.git"
    (by decide) (by decide) (by decide)
  ⟨h.1, h.2.1⟩

/-- Counterexample to C8 as stated: in the whole-project `Sync` tarball
fallback, the extraction command contains no removal of the target service
directory — the prior remote contents are not wiped before extraction. -/
theorem C8_counterexample :
    REvent.runShell (syncExtractCmd "backend" "backend.tar.gz") ∈ (syncModel envNoRsync).2 ∧
    (∀ p, ShellStep.rmRfDir p ∉ syncExtractCmd "backend" "backend.tar.gz") := by
  constructor
  · decide
  · intro p
    simp [syncExtractCmd]

/-- C8 (amended). When rsync is unavailable, both `SyncService` and `Sync`
fall back to creating a local archive, uploading it, and extracting it
remotely; `SyncService`'s extraction wipes the target directory first while
whole-project `Sync` extracts over the existing contents without any prior
removal. -/
theorem C8_tarball_fallback :
    (∀ dir tar, ShellStep.rmRfDir dir ∈ syncServiceExtractCmd dir tar) ∧
    (∀ dir tar p, ShellStep.rmRfDir p ∉ syncExtractCmd dir tar) ∧
    syncServiceModel envNoRsync "backend"
      = (none, [REvent.mkdirProjDir, REvent.uploadCompose,
          REvent.mkdirServiceDir "backend", REvent.uploadTarball "backend.tar.gz",
          REvent.runShell [ShellStep.rmRfDir "backend", ShellStep.mkdirP "backend",
            ShellStep.tarExtract "backend.tar.gz" "backend",
            ShellStep.rmFile "backend.tar.gz"],
          REvent.stopRemove "backend", REvent.buildService "backend" false,
          REvent.startService "backend", REvent.pruneImages]) ∧
    (syncModel envNoRsync).2
      = [REvent.mkdirProjDir, REvent.mkdirServiceDir "backend",
         REvent.uploadTarball "backend.tar.gz",
         REvent.runShell [ShellStep.mkdirP "backend",
           ShellStep.tarExtract "backend.tar.gz" "backend",
           ShellStep.rmFile "backend.tar.gz"],
         REvent.uploadCompose, REvent.buildAll false, REvent.startAll,
         REvent.pruneImages] := by
  refine ⟨?_, ?_, by decide, by decide⟩
  · intro dir tar
    simp [syncServiceExtractCmd]
  · intro dir tar p
    simp [syncExtractCmd]

/-- C9. The image-only `frontend` classifies as PULL and executes the
stop/pull/start/prune sequence in `SyncService`, while the
build+serverbuild `backend` classifies as UPLOAD_BUILD and is the only
service transferred in the whole-project upload phase. -/
theorem C9_strategy_routing :
    classifyStrategy svcFrontend = Strategy.pull ∧
    classifyStrategy svcBackend = Strategy.uploadBuild ∧
    syncServiceModel envRouting "frontend"
      = (none, [REvent.mkdirProjDir, REvent.uploadCompose,
          REvent.stopRemove "frontend", REvent.pullImage "frontend",
          REvent.startService "frontend", REvent.pruneImages]) ∧
    syncModel envRouting
      = (none, [REvent.mkdirProjDir, REvent.mkdirServiceDir "backend",
          REvent.rsyncDir "backend" "backend", REvent.uploadCompose,
          REvent.buildAll false, REvent.startAll, REvent.pruneImages]) := by
  decide

end Client
